import Mathlib

/-!
Verification development for the InsiderTape ingestion/ETL engine
(`src/server.js` quarterly sync section, the `sync-worker` section of the same
file, and `src/daily-worker.js`).

The JavaScript source is shallowly embedded:
* JS strings are Lean `String`; the only falsy string is `""`, and an absent
  (`undefined`) object field is modelled as `""` because every field access in
  the source is guarded by `|| ''` or feeds a `||` chain.
* JS numbers are modelled as rationals (`ℚ`); IEEE-754 rounding is out of
  scope for every claim treated here.
* Fallible statements (`throw`, out-of-range buffer reads, calling `.length`
  on `null`) are modelled with `Except String`.
* The SQLite trade store is a list of rows; `INSERT OR IGNORE` under the
  unique index is an explicit duplicate check on the key tuple.
-/

-- Rational arithmetic must evaluate inside `decide` proofs over the embedded
-- pipeline, so the batteries arithmetic on `Rat` is restored to normal
-- reducibility for this file.
attribute [local semireducible] Rat.add Rat.sub Rat.mul Rat.inv

/-- JS `a || b` for strings: `""` (and absent-field `undefined`, which the
source always coerces through `|| ''`) is falsy, every other string truthy. -/
def jsOr (a b : String) : String := if a = "" then b else a

/-- JS `a || b` where `a : String | null` (e.g. a `parseDate` result): `null`
and `""` both fall through to `b`. -/
def jsOrO (a b : Option String) : Option String :=
  match a with
  | none => b
  | some s => if s = "" then b else some s

/-- JS `a || b` where `a : String | null` and `b` a (truthy) string, as in
`sub.filed || date`. -/
def jsOrS (a : Option String) (b : String) : String :=
  match a with
  | none => b
  | some s => if s = "" then b else s

/-- ASCII whitespace used by trimming (space, tab, CR, LF); the source data is
ASCII TSV so the JS Unicode-whitespace cases never arise. -/
def isWs (c : Char) : Bool := c = ' ' ∨ c = '\t' ∨ c = '\r' ∨ c = '\n'

/-- JS `String.prototype.trim` over the character list. -/
def myTrim (s : String) : String :=
  String.mk (((s.data.dropWhile isWs).reverse.dropWhile isWs).reverse)

/-- JS `String.prototype.toUpperCase` (ASCII range, all data in scope is ASCII). -/
def myToUpper (s : String) : String := String.mk (s.data.map Char.toUpper)

/-- Split a character list at every occurrence of `c` (JS `split` with a
one-character separator: always returns at least one piece, keeps empties). -/
def splitCharGo (c : Char) : List Char → List Char → List (List Char)
  | [], acc => [acc.reverse]
  | x :: xs, acc =>
    if x = c then acc.reverse :: splitCharGo c xs []
    else splitCharGo c xs (x :: acc)

/-- JS `s.split(c)` for a single-character separator. -/
def splitChar (c : Char) (s : String) : List String :=
  (splitCharGo c s.data []).map String.mk

/-- JS `a.startsWith(b)` on character lists. -/
def startsWithL : List Char → List Char → Bool
  | _, [] => true
  | [], _ :: _ => false
  | a :: as, b :: bs => a = b && startsWithL as bs

/-- JS `a.startsWith(b)`. -/
def startsWithStr (a b : String) : Bool := startsWithL a.data b.data

-- ── Date normalizer (server.js lines 91-99 = sync-worker lines 907-915) ──

/-- The `mon` month-abbreviation table of `parseDate`. -/
def monthMap : String → Option String
  | "JAN" => some "01"
  | "FEB" => some "02"
  | "MAR" => some "03"
  | "APR" => some "04"
  | "MAY" => some "05"
  | "JUN" => some "06"
  | "JUL" => some "07"
  | "AUG" => some "08"
  | "SEP" => some "09"
  | "OCT" => some "10"
  | "NOV" => some "11"
  | "DEC" => some "12"
  | _ => none

/-- ASCII letter test, the `[A-Z]` class under the `/i` flag. -/
def isAsciiLetter (c : Char) : Bool :=
  ('A' ≤ c ∧ c ≤ 'Z') ∨ ('a' ≤ c ∧ c ≤ 'z')

/-- Shape test for the regex `/^(\d{2})-([A-Z]{3})-(\d{4})$/i`. -/
def ddMonShape (cs : List Char) : Bool :=
  decide (cs.length = 11) &&
  (cs.getD 0 ' ').isDigit && (cs.getD 1 ' ').isDigit &&
  decide (cs.getD 2 ' ' = '-') &&
  isAsciiLetter (cs.getD 3 ' ') && isAsciiLetter (cs.getD 4 ' ') &&
  isAsciiLetter (cs.getD 5 ' ') &&
  decide (cs.getD 6 ' ' = '-') &&
  (cs.getD 7 ' ').isDigit && (cs.getD 8 ' ').isDigit &&
  (cs.getD 9 ' ').isDigit && (cs.getD 10 ' ').isDigit

/-- The `DD-MON-YYYY` branch of `parseDate`: on a regex match, rebuild
`` `${m[3]}-${mon[m[2].toUpperCase()]||'01'}-${m[1]}` ``. -/
def ddMonParse (s : String) : Option String :=
  if ddMonShape s.data then
    some (String.mk
      (s.data.getD 7 ' ' :: s.data.getD 8 ' ' :: s.data.getD 9 ' ' ::
       s.data.getD 10 ' ' :: '-' ::
       (((monthMap (String.mk
           [(s.data.getD 3 ' ').toUpper, (s.data.getD 4 ' ').toUpper,
            (s.data.getD 5 ' ').toUpper])).getD "01").data ++
        ('-' :: s.data.getD 0 ' ' :: [s.data.getD 1 ' ']))))
  else none

/-- Shape test for the regex `/^\d{4}-\d{2}-\d{2}$/`. -/
def isoShape (s : String) : Bool :=
  let cs := s.data
  decide (cs.length = 10) &&
  (cs.getD 0 ' ').isDigit && (cs.getD 1 ' ').isDigit &&
  (cs.getD 2 ' ').isDigit && (cs.getD 3 ' ').isDigit &&
  decide (cs.getD 4 ' ' = '-') &&
  (cs.getD 5 ' ').isDigit && (cs.getD 6 ' ').isDigit &&
  decide (cs.getD 7 ' ' = '-') &&
  (cs.getD 8 ' ').isDigit && (cs.getD 9 ' ').isDigit

/-- `parseDate` of server.js (lines 91-99), identical in the sync-worker
(lines 907-915): `DD-MON-YYYY` is rewritten, `YYYY-MM-DD` is returned
unchanged (`s.slice(0,10)` of an exactly-10-character string), anything else
is `null`.  Note: no year bound is checked here. -/
def parseDate (s : String) : Option String :=
  if s = "" then none
  else
    match ddMonParse s with
    | some r => some r
    | none => if isoShape s then some s else none

/-- Decimal digits to a number, `parseInt` on an all-digit string. -/
def digitsToNat (l : List Char) : Nat :=
  l.foldl (fun n c => n * 10 + (c.toNat - 48)) 0

/-- The year `parseInt(s.slice(0,4))` of an ISO-shaped string. -/
def isoYear (s : String) : Nat := digitsToNat (s.data.take 4)

/-- `parseDate` of daily-worker.js (lines 120-127): only the ISO shape is
accepted and only with a year inside `[2000, 2027]`; `DD-MON-YYYY` (and every
other shape) yields `null`. -/
def dailyParseDate (s : String) : Option String :=
  if s = "" then none
  else if isoShape s then
    let yr := isoYear s
    if 2000 ≤ yr ∧ yr ≤ 2027 then some s else none
  else none

-- ── JS numeric model (rationals in place of IEEE doubles) ──────────────

/-- JS `parseFloat` on the plain decimal strings of the SEC numeric fields:
optional sign, then the longest `digits[.digits]` / `.digits` prefix; `none`
is `NaN`.  (Exponent forms and `Infinity` never occur in this data and are
out of scope.) -/
def parseFloatQ (s : String) : Option ℚ :=
  let p := match s.data with
    | '-' :: r => ((-1 : ℚ), r)
    | '+' :: r => ((1 : ℚ), r)
    | r => ((1 : ℚ), r)
  let intDigits := p.2.takeWhile Char.isDigit
  let rest := p.2.dropWhile Char.isDigit
  let fracDigits := match rest with
    | '.' :: r => r.takeWhile Char.isDigit
    | _ => []
  if intDigits = [] ∧ fracDigits = [] then none
  else some (p.1 * ((digitsToNat intDigits : ℚ) +
    (digitsToNat fracDigits : ℚ) / ((10 : ℚ) ^ fracDigits.length)))

/-- JS `parseFloat(s) || 0`: `NaN` (and `0` itself) collapse to `0`. -/
def numOrZero (s : String) : ℚ := (parseFloatQ s).getD 0

/-- JS `Math.round` (half toward positive infinity); every use in the source
is applied to a non-negative value. -/
def jsRound (q : ℚ) : ℤ := ⌊q + 1/2⌋

/-- JS `+x.toFixed(4)` for the non-negative prices of the source: round to
four decimal places. -/
def toFixed4 (q : ℚ) : ℚ := (jsRound (q * 10000) : ℚ) / 10000

-- ── Tabular decoder: tsvRows (server.js lines 132-142 / 941-951) ───────

/-- A decoded TSV row: header-keyed values in assignment order.  JS object
semantics make a later assignment to the same key overwrite an earlier one,
so lookup takes the last binding. -/
abbrev Row : Type := List (String × String)

/-- Field access `t.NAME || ''`: an absent key is the empty string. -/
def rowGet (r : Row) (k : String) : String :=
  ((r.reverse.find? (fun p => p.1 == k)).map Prod.snd).getD ""

/-- One data line: `hdrs.forEach((h, j) => row[h] = (cols[j] || '').trim())`. -/
def mkRow (hdrs : List String) (cols : List String) : Row :=
  hdrs.enum.map (fun ih => (ih.2, myTrim (cols.getD ih.1 "")))

/-- `tsvRows(lines)`: `null` or empty input yields no rows; the first line is
split on tabs into trimmed upper-cased headers; blank lines are skipped. -/
def tsvRows : Option (List String) → List Row
  | none => []
  | some [] => []
  | some (hdr :: rest) =>
    let hdrs := (splitChar '\t' hdr).map (fun h => myToUpper (myTrim h))
    rest.filterMap (fun line =>
      if myTrim line = "" then none
      else some (mkRow hdrs (splitChar '\t' line)))

-- ── Join index builder (server.js lines 158-189 / 996-1024) ────────────

/-- Submission-map value (server.js lines 165-170). -/
structure Submission where
  ticker : String
  company : String
  filed : Option String
  period : Option String
deriving DecidableEq

/-- Owner-map value (server.js lines 183-186). -/
structure Owner where
  name : String
  title : String
deriving DecidableEq

/-- One submission row to its map value; note the `filed`/`period`
cross-fallback `parseDate(s.FILEDATE || s.PERIOD_OF_REPORT || '')` and
`parseDate(s.PERIOD_OF_REPORT || s.FILEDATE || '')`. -/
def buildSub (s : Row) : Submission :=
  { ticker := myTrim (myToUpper (rowGet s "ISSUERTRADINGSYMBOL"))
    company := myTrim (rowGet s "ISSUERNAME")
    filed := parseDate (jsOr (rowGet s "FILEDATE")
      (jsOr (rowGet s "PERIOD_OF_REPORT") ""))
    period := parseDate (jsOr (rowGet s "PERIOD_OF_REPORT")
      (jsOr (rowGet s "FILEDATE") "")) }

/-- Submission map: accession to `Submission`, a later row for the same accession
overwriting an earlier one (JS object assignment). -/
def buildSubMap (rows : List Row) : String → Option Submission :=
  rows.foldl
    (fun m s =>
      let acc := rowGet s "ACCESSION_NUMBER"
      if acc = "" then m
      else fun k => if k = acc then some (buildSub s) else m k)
    (fun _ => none)

/-- One owner row to its map value (`OFFICERTITLE || RPTOWNERRELATIONSHIP || ''`). -/
def buildOwner (o : Row) : Owner :=
  { name := myTrim (rowGet o "RPTOWNERNAME")
    title := myTrim (jsOr (rowGet o "OFFICERTITLE")
      (jsOr (rowGet o "RPTOWNERRELATIONSHIP") "")) }

/-- Owner map: first occurrence per accession wins
(`if (!acc || ownerMap[acc]) continue`). -/
def buildOwnerMap (rows : List Row) : String → Option Owner :=
  rows.foldl
    (fun m o =>
      let acc := rowGet o "ACCESSION_NUMBER"
      if acc = "" ∨ (m acc).isSome then m
      else fun k => if k = acc then some (buildOwner o) else m k)
    (fun _ => none)

-- ── Canonical trade record and the idempotent store ────────────────────

/-- A stored trade row; the values bound by `insertStmt` (server.js lines
58-62) in column order. -/
structure Trade where
  ticker : String
  company : String
  insider : String
  title : String
  trade_date : String
  filing_date : String
  type_ : String
  qty : ℤ
  price : ℚ
  value : ℤ
  owned : ℤ
  accession : String
deriving DecidableEq

/-- The tuple of the unique index `UNIQUE(accession, insider, trade_date,
type, qty)` (server.js line 46). -/
def tradeKey (t : Trade) : String × String × String × String × ℤ :=
  (t.accession, t.insider, t.trade_date, t.type_, t.qty)

/-- `INSERT OR IGNORE` of one row under the unique index: a row whose key
tuple is already present leaves the table unchanged (no error), otherwise the
row is appended. -/
def insertOrIgnore (store : List Trade) (t : Trade) : List Trade :=
  if store.any (fun u => tradeKey u = tradeKey t) then store else store ++ [t]

/-- `doInsert` of server.js (lines 193-197): run the insert for every row of
the batch, counting `n++` per row submitted (not per row actually inserted),
and return `n`. -/
def doInsert (store : List Trade) (batch : List Trade) : List Trade × Nat :=
  batch.foldl (fun p r => (insertOrIgnore p.1 r, p.2 + 1)) (store, 0)

/-- The worker's `doInsert` (lines 953-955): inserts only, no count. -/
def doInsertW (store : List Trade) (batch : List Trade) : List Trade :=
  batch.foldl insertOrIgnore store

-- ── Record normalizer: loop body of processTransLines (lines 202-220) ──

/-- The per-row normalization of `processTransLines` / `processTransactions`:
resolve the accession in the submission map, drop the row on a missing or
ticker-less submission or an unresolvable date, otherwise build the bound
row.  Identical in server.js (lines 202-220) and the sync-worker (lines
961-977). -/
def rowToTrade (subMap : String → Option Submission) (ownerMap : String → Option Owner)
    (t : Row) : Option Trade :=
  let acc := rowGet t "ACCESSION_NUMBER"
  match subMap acc with
  | none => none
  | some sub =>
    if sub.ticker = "" then none
    else
      match jsOrO (parseDate (rowGet t "TRANS_DATE")) (jsOrO sub.period sub.filed) with
      | none => none
      | some date =>
        let qty := jsRound |numOrZero (jsOr (rowGet t "TRANS_SHARES")
          (jsOr (rowGet t "UNDERLYING_SHARES") "0"))|
        let price := |numOrZero (jsOr (rowGet t "TRANS_PRICEPERSHARE")
          (jsOr (rowGet t "EXERCISE_PRICE") "0"))|
        some
          { ticker := sub.ticker
            company := sub.company
            insider := ((ownerMap acc).map Owner.name).getD ""
            title := ((ownerMap acc).map Owner.title).getD ""
            trade_date := date
            filing_date := jsOrS sub.filed date
            type_ := myTrim (jsOr (rowGet t "TRANS_CODE") "?")
            qty := qty
            price := toFixed4 price
            value := jsRound ((qty : ℚ) * price)
            owned := jsRound |numOrZero (jsOr (rowGet t "SHRSOWNFOLLOWINGTRANS") "0")|
            accession := acc }

/-- Batch loop of server.js `processTransLines` (lines 199-228): fill a batch,
flush through `doInsert` at 1000 rows and at the end, accumulate the counts
`doInsert` returns. -/
def procGo (subMap : String → Option Submission) (ownerMap : String → Option Owner) :
    List Row → List Trade → List Trade → Nat → List Trade × Nat
  | [], store, batch, count =>
    if batch.isEmpty then (store, count)
    else
      let p := doInsert store batch
      (p.1, count + p.2)
  | t :: rest, store, batch, count =>
    match rowToTrade subMap ownerMap t with
    | none => procGo subMap ownerMap rest store batch count
    | some rec =>
      let batch' := batch ++ [rec]
      if 1000 ≤ batch'.length then
        let p := doInsert store batch'
        procGo subMap ownerMap rest p.1 [] (count + p.2)
      else procGo subMap ownerMap rest store batch' count

/-- `processTransLines(lines, isDeriv)` of server.js: note the `isDeriv`
parameter is accepted and never used. -/
def processTransLines (subMap : String → Option Submission)
    (ownerMap : String → Option Owner) (store : List Trade)
    (lines : Option (List String)) (isDeriv : Bool) : List Trade × Nat :=
  procGo subMap ownerMap (tsvRows lines) store [] 0

/-- Batch loop of the sync-worker's `processTransactions` (lines 960-980):
flush at 500 rows, count `count += batch.length`. -/
def procGoW (subMap : String → Option Submission) (ownerMap : String → Option Owner) :
    List Row → List Trade → List Trade → Nat → List Trade × Nat
  | [], store, batch, count =>
    if batch.isEmpty then (store, count)
    else (doInsertW store batch, count + batch.length)
  | t :: rest, store, batch, count =>
    match rowToTrade subMap ownerMap t with
    | none => procGoW subMap ownerMap rest store batch count
    | some rec =>
      let batch' := batch ++ [rec]
      if 500 ≤ batch'.length then
        procGoW subMap ownerMap rest (doInsertW store batch') [] (count + batch'.length)
      else procGoW subMap ownerMap rest store batch' count

deriving instance DecidableEq for Except

-- ── Container scanner: extractOne (server.js lines 103-129 / 918-939) ──

/-- Node `buf.readUInt16LE(i)`: little-endian, throws `RangeError` when the
read runs past the end of the buffer. -/
def readU16 (b : List Nat) (i : Nat) : Option Nat :=
  if i + 2 ≤ b.length then some (b.getD i 0 + 256 * b.getD (i + 1) 0) else none

/-- Node `buf.readUInt32LE(i)`. -/
def readU32 (b : List Nat) (i : Nat) : Option Nat :=
  if i + 4 ≤ b.length then
    some (b.getD i 0 + 256 * b.getD (i + 1) 0 + 65536 * b.getD (i + 2) 0 +
      16777216 * b.getD (i + 3) 0)
  else none

/-- Byte-list to text, one character per byte (the archive members in scope
are ASCII, where this agrees with the source's utf8 decode). -/
def bytesToString (b : List Nat) : String :=
  String.mk (b.map Char.ofNat)

/-- The 4-byte local-file-header signature test at `pos`. -/
def sigAt (zipBuf : List Nat) (pos : Nat) : Bool :=
  zipBuf.getD pos 0 = 0x50 ∧ zipBuf.getD (pos + 1) 0 = 0x4B ∧
  zipBuf.getD (pos + 2) 0 = 0x03 ∧ zipBuf.getD (pos + 3) 0 = 0x04

/-- Scan loop of `extractOne`.  `fuel` only bounds the recursion; the cursor
strictly increases each step, so `zipBuf.length + 1` is never exhausted.
`.ok none` is the explicit "absent" result (`return null`), `.error` a thrown
exception (failed inflate or out-of-range header read). -/
def extractGo (inflate : List Nat → Except String (List Nat)) (zipBuf : List Nat)
    (targetName : String) : Nat → Nat → Except String (Option (List String))
  | 0, _ => .ok none
  | fuel + 1, pos =>
    if pos < zipBuf.length - 4 then
      if sigAt zipBuf pos then
        match readU16 zipBuf (pos + 8), readU32 zipBuf (pos + 18),
            readU16 zipBuf (pos + 26), readU16 zipBuf (pos + 28) with
        | some compression, some compSize, some fnLen, some exLen =>
          let fname := bytesToString ((zipBuf.drop (pos + 30)).take fnLen)
          let dataStart := pos + 30 + fnLen + exLen
          let base := myToUpper ((splitChar '/' fname).getLastD "")
          if startsWithStr base (myToUpper targetName) then
            let compressed := (zipBuf.drop dataStart).take compSize
            match (if compression = 8 then inflate compressed
                   else .ok compressed : Except String (List Nat)) with
            | .error e => .error e
            | .ok raw => .ok (some (splitChar '\n' (bytesToString raw)))
          else extractGo inflate zipBuf targetName fuel (dataStart + compSize)
        | _, _, _, _ => .error "RangeError: attempt to access memory outside buffer bounds"
      else extractGo inflate zipBuf targetName fuel (pos + 1)
    else .ok none

/-- `extractOne(zipBuf, targetName)`: sequential local-header scan, no central
directory; returns the member's lines, `null` when no base filename matches
the prefix by the end of the buffer, or throws. -/
def extractOne (inflate : List Nat → Except String (List Nat)) (zipBuf : List Nat)
    (targetName : String) : Except String (Option (List String)) :=
  extractGo inflate zipBuf targetName (zipBuf.length + 1) 0

-- ── Sync state machine ─────────────────────────────────────────────────

/-- Persisted state: the `trades` table and the `sync_log` table
(quarter key to row count; `synced_at` timestamps carry no claim content). -/
structure DB where
  trades : List Trade
  syncLog : List (String × Nat)
deriving DecidableEq

/-- `SELECT 1 FROM sync_log WHERE quarter=?`. -/
def lookupLog (log : List (String × Nat)) (k : String) : Option Nat :=
  ((log.find? (fun p => p.1 == k)).map Prod.snd)

/-- `INSERT OR REPLACE INTO sync_log (quarter, rows) VALUES (?,?)`. -/
def logSet (log : List (String × Nat)) (k : String) (n : Nat) : List (String × Nat) :=
  (log.filter (fun p => p.1 ≠ k)) ++ [(k, n)]

/-- The quarter key `` `${year}Q${q}` ``. -/
def qkey (year q : Nat) : String := toString year ++ "Q" ++ toString q

/-- The archive URL for one quarter. -/
def quarterUrl (year q : Nat) : String :=
  "https://www.sec.gov/files/structureddata/data/insider-transactions-data-sets/"
    ++ toString year ++ "q" ++ toString q ++ "_form345.zip"

/-- `lines.length = 0` applied to `extractOne`'s result: on a real array this
releases the buffer and succeeds; on `null` it throws a `TypeError`. -/
def freeLines : Option (List String) → Except String Unit
  | none => .error "TypeError: Cannot set properties of null"
  | some _ => .ok ()

/-- Result of one quarter sync: `Sum.inl` is a normal return carrying the new
state, `Sum.inr` a thrown error carrying the state at the throw point (each
batch commits on its own, so rows inserted before a throw stay committed);
the second component lists the URLs fetched. -/
abbrev SyncResult : Type := (DB ⊕ (DB × String)) × List String

/-- `syncQuarter(year, q, force)` of server.js (lines 144-242): skip when the
sync log already has the quarter (unless forced); throw on fetch failure or a
non-200 status; per table: extract, build the map or insert the batches, then
free the line buffer (which throws on an absent table); finally record the
quarter in the sync log. -/
def syncQuarterServer (inflate : List Nat → Except String (List Nat))
    (fetch : String → Except String (Nat × List Nat)) (year q : Nat)
    (force : Bool) (db : DB) : SyncResult :=
  let key := qkey year q
  if force = false ∧ (lookupLog db.syncLog key).isSome then (Sum.inl db, [])
  else
    let url := quarterUrl year q
    match fetch url with
    | .error e => (Sum.inr (db, e), [url])
    | .ok (status, zipBuf) =>
      if status ≠ 200 then (Sum.inr (db, "HTTP " ++ toString status), [url])
      else
        match extractOne inflate zipBuf "SUBMISSION" with
        | .error e => (Sum.inr (db, e), [url])
        | .ok subL =>
          let subMap := buildSubMap (tsvRows subL)
          match freeLines subL with
          | .error e => (Sum.inr (db, e), [url])
          | .ok _ =>
            match extractOne inflate zipBuf "REPORTINGOWNER" with
            | .error e => (Sum.inr (db, e), [url])
            | .ok ownL =>
              let ownerMap := buildOwnerMap (tsvRows ownL)
              match freeLines ownL with
              | .error e => (Sum.inr (db, e), [url])
              | .ok _ =>
                match extractOne inflate zipBuf "NONDERIV_TRANS" with
                | .error e => (Sum.inr (db, e), [url])
                | .ok ndL =>
                  let p1 := processTransLines subMap ownerMap db.trades ndL false
                  match freeLines ndL with
                  | .error e => (Sum.inr ({ trades := p1.1, syncLog := db.syncLog }, e), [url])
                  | .ok _ =>
                    match extractOne inflate zipBuf "DERIV_TRANS" with
                    | .error e => (Sum.inr ({ trades := p1.1, syncLog := db.syncLog }, e), [url])
                    | .ok dL =>
                      let p2 := processTransLines subMap ownerMap p1.1 dL true
                      match freeLines dL with
                      | .error e => (Sum.inr ({ trades := p2.1, syncLog := db.syncLog }, e), [url])
                      | .ok _ =>
                        (Sum.inl { trades := p2.1,
                                   syncLog := logSet db.syncLog key (p1.2 + p2.2) }, [url])

/-- The sync-worker's `processTransactions` (lines 957-983): extract the one
table, return zero rows when it is absent (`if (!lines) return 0`), else run
the insert loop. -/
def processTransactionsW (inflate : List Nat → Except String (List Nat))
    (zipBuf : List Nat) (targetName : String) (subMap : String → Option Submission)
    (ownerMap : String → Option Owner) (store : List Trade) :
    Except String (List Trade × Nat) :=
  match extractOne inflate zipBuf targetName with
  | .error e => .error e
  | .ok none => .ok (store, 0)
  | .ok (some lines) => .ok (procGoW subMap ownerMap (tsvRows (some lines)) store [] 0)

/-- The sync-worker's `syncQuarter` (lines 985-1035): no `force` parameter; a
non-200 status is logged and skipped (a normal return, nothing written); the
transaction tables go through `processTransactionsW`. -/
def syncQuarterWorker (inflate : List Nat → Except String (List Nat))
    (fetch : String → Except String (Nat × List Nat)) (year q : Nat)
    (db : DB) : SyncResult :=
  let key := qkey year q
  if (lookupLog db.syncLog key).isSome then (Sum.inl db, [])
  else
    let url := quarterUrl year q
    match fetch url with
    | .error e => (Sum.inr (db, e), [url])
    | .ok (status, zipBuf) =>
      if status ≠ 200 then (Sum.inl db, [url])
      else
        match extractOne inflate zipBuf "SUBMISSION" with
        | .error e => (Sum.inr (db, e), [url])
        | .ok subL =>
          let subMap := buildSubMap (tsvRows subL)
          match freeLines subL with
          | .error e => (Sum.inr (db, e), [url])
          | .ok _ =>
            match extractOne inflate zipBuf "REPORTINGOWNER" with
            | .error e => (Sum.inr (db, e), [url])
            | .ok ownL =>
              let ownerMap := buildOwnerMap (tsvRows ownL)
              match freeLines ownL with
              | .error e => (Sum.inr (db, e), [url])
              | .ok _ =>
                match processTransactionsW inflate zipBuf "NONDERIV_TRANS" subMap ownerMap db.trades with
                | .error e => (Sum.inr (db, e), [url])
                | .ok (s1, n1) =>
                  match processTransactionsW inflate zipBuf "DERIV_TRANS" subMap ownerMap s1 with
                  | .error e => (Sum.inr ({ trades := s1, syncLog := db.syncLog }, e), [url])
                  | .ok (s2, n2) =>
                    (Sum.inl { trades := s2, syncLog := logSet db.syncLog key (n1 + n2) }, [url])

/-- `runSync` of server.js (lines 255-269): the quarter loop sits inside one
`try`; the first quarter that throws lands in the `catch`, which logs and
falls through — the loop does not resume, the remaining quarters are not
processed in that run. -/
def runSyncServer (inflate : List Nat → Except String (List Nat))
    (fetch : String → Except String (Nat × List Nat)) :
    List (Nat × Nat) → Bool → DB → DB
  | [], _, db => db
  | (y, q) :: rest, force, db =>
    match (syncQuarterServer inflate fetch y q force db).1 with
    | Sum.inl db' => runSyncServer inflate fetch rest force db'
    | Sum.inr (db', _) => db'

/-- The sync-worker main loop (lines 1048-1058): sequential `await
syncQuarter` with no try/catch — a thrown error escapes the async main and
ends the process. -/
def workerMain (inflate : List Nat → Except String (List Nat))
    (fetch : String → Except String (Nat × List Nat)) :
    List (Nat × Nat) → DB → DB ⊕ (DB × String)
  | [], db => Sum.inl db
  | (y, q) :: rest, db =>
    match (syncQuarterWorker inflate fetch y q db).1 with
    | Sum.inl db' => workerMain inflate fetch rest db'
    | Sum.inr e => Sum.inr e

-- ── Concrete fixtures for witnesses and counterexamples ────────────────

/-- Little-endian 16-bit encoding. -/
def u16le (n : Nat) : List Nat := [n % 256, n / 256 % 256]

/-- Little-endian 32-bit encoding. -/
def u32le (n : Nat) : List Nat :=
  [n % 256, n / 256 % 256, n / 65536 % 256, n / 16777216 % 256]

/-- Text to bytes (ASCII fixtures only). -/
def strBytes (s : String) : List Nat := s.data.map Char.toNat

/-- One stored (method 0) ZIP local entry: signature, version/flags zeroed,
method 0, time/date/crc zeroed, sizes, name, no extra field, data. -/
def mkEntry (name content : String) : List Nat :=
  let data := strBytes content
  let fn := strBytes name
  [0x50, 0x4B, 0x03, 0x04] ++ [0, 0] ++ [0, 0] ++ u16le 0 ++
    [0, 0] ++ [0, 0] ++ u32le 0 ++ u32le data.length ++ u32le data.length ++
    u16le fn.length ++ u16le 0 ++ fn ++ data

/-- SUBMISSION fixture: one filing `A1` for ticker ACME. -/
def subTsv : String :=
  "ACCESSION_NUMBER\tISSUERTRADINGSYMBOL\tISSUERNAME\tFILEDATE\tPERIOD_OF_REPORT\nA1\tACME\tAcme Corp\t2026-04-10\t2026-03-31\n"

/-- REPORTINGOWNER fixture. -/
def ownTsv : String :=
  "ACCESSION_NUMBER\tRPTOWNERNAME\tOFFICERTITLE\nA1\tJane Doe\tCEO\n"

/-- NONDERIV_TRANS fixture: one purchase row. -/
def ndTsv : String :=
  "ACCESSION_NUMBER\tTRANS_DATE\tTRANS_CODE\tTRANS_SHARES\tTRANS_PRICEPERSHARE\tSHRSOWNFOLLOWINGTRANS\nA1\t2026-03-15\tP\t100\t10.5\t1000\n"

/-- DERIV_TRANS fixture: header only, no data rows. -/
def dTsv : String :=
  "ACCESSION_NUMBER\tTRANS_DATE\tTRANS_CODE\tTRANS_SHARES\tTRANS_PRICEPERSHARE\n"

/-- An archive holding all four tables. -/
def zipAll : List Nat :=
  mkEntry "SUBMISSION.tsv" subTsv ++ mkEntry "REPORTINGOWNER.tsv" ownTsv ++
    mkEntry "NONDERIV_TRANS.tsv" ndTsv ++ mkEntry "DERIV_TRANS.tsv" dTsv

/-- An archive lacking the DERIV_TRANS table. -/
def zipNoDeriv : List Nat :=
  mkEntry "SUBMISSION.tsv" subTsv ++ mkEntry "REPORTINGOWNER.tsv" ownTsv ++
    mkEntry "NONDERIV_TRANS.tsv" ndTsv

/-- Inflate stub: every fixture entry is stored (method 0), so deflate is
never invoked. -/
def inflate0 : List Nat → Except String (List Nat) := fun _ => .error "inflate unavailable"

/-- A fetch oracle returning the complete archive for every URL. -/
def fetchAll : String → Except String (Nat × List Nat) := fun _ => .ok (200, zipAll)

/-- A fetch oracle returning the DERIV_TRANS-less archive for every URL. -/
def fetchNoDeriv : String → Except String (Nat × List Nat) := fun _ => .ok (200, zipNoDeriv)

/-- A fetch oracle answering 404 to every URL. -/
def fetch404 : String → Except String (Nat × List Nat) := fun _ => .ok (404, [])

/-- A fetch oracle modelling a network failure on every URL. -/
def fetchDead : String → Except String (Nat × List Nat) := fun _ => .error "Timeout"

/-- The trade the fixtures normalize to. -/
def tradeA : Trade :=
  { ticker := "ACME", company := "Acme Corp", insider := "Jane Doe",
    title := "CEO", trade_date := "2026-03-15", filing_date := "2026-04-10",
    type_ := "P", qty := 100, price := 21/2, value := 1050, owned := 1000,
    accession := "A1" }

/-- `tradeA` with a different `owned` value: identical on the unique tuple. -/
def tradeA2 : Trade := { tradeA with owned := 500 }

/-- The empty database. -/
def db0 : DB := { trades := [], syncLog := [] }

/-- The database after one successful sync of 2025 Q4 from the fixtures. -/
def dbDone : DB := { trades := [tradeA], syncLog := [("2025Q4", 1)] }

-- ── Store lemmas ───────────────────────────────────────────────────────

/-- No two rows of the store agree on the unique tuple. -/
def NoDupKeys (l : List Trade) : Prop :=
  l.Pairwise (fun a b => tradeKey a ≠ tradeKey b)

lemma insertOrIgnore_of_mem {store : List Trade} {t : Trade}
    (h : ∃ u ∈ store, tradeKey u = tradeKey t) :
    insertOrIgnore store t = store := by
  unfold insertOrIgnore
  rw [if_pos]
  simpa [List.any_eq_true] using h

lemma insertOrIgnore_noDup {store : List Trade} {t : Trade}
    (h : NoDupKeys store) : NoDupKeys (insertOrIgnore store t) := by
  unfold insertOrIgnore
  split
  · exact h
  · rename_i hany
    simp only [List.any_eq_true, decide_eq_true_eq, not_exists] at hany
    refine (List.pairwise_append).2 ⟨h, List.pairwise_singleton _ _, ?_⟩
    intro a ha b hb
    simp only [List.mem_singleton] at hb
    subst hb
    push_neg at hany
    exact fun hk => (hany a ha) hk

lemma insertOrIgnore_extends (store : List Trade) (t : Trade) :
    store <+: insertOrIgnore store t := by
  unfold insertOrIgnore
  split
  · exact List.prefix_rfl
  · exact ⟨[t], rfl⟩

lemma doInsertW_noDup : ∀ (batch : List Trade) (store : List Trade),
    NoDupKeys store → NoDupKeys (doInsertW store batch)
  | [], _, h => h
  | r :: rs, store, h =>
    doInsertW_noDup rs (insertOrIgnore store r) (insertOrIgnore_noDup h)

lemma doInsertW_extends : ∀ (batch : List Trade) (store : List Trade),
    store <+: doInsertW store batch
  | [], _ => List.prefix_rfl
  | r :: rs, store =>
    (insertOrIgnore_extends store r).trans (doInsertW_extends rs (insertOrIgnore store r))

lemma doInsert_eq : ∀ (batch : List Trade) (store : List Trade) (n : Nat),
    batch.foldl (fun p r => (insertOrIgnore p.1 r, p.2 + 1)) (store, n) =
      (doInsertW store batch, n + batch.length)
  | [], store, n => rfl
  | r :: rs, store, n => by
    have h := doInsert_eq rs (insertOrIgnore store r) (n + 1)
    simp only [List.foldl, doInsertW] at h ⊢
    rw [h]
    congr 1
    simp only [List.length_cons]
    omega

lemma doInsert_spec (store batch : List Trade) :
    doInsert store batch = (doInsertW store batch, batch.length) := by
  simpa [doInsert] using doInsert_eq batch store 0

lemma doInsert_noDup {store : List Trade} (batch : List Trade)
    (h : NoDupKeys store) : NoDupKeys (doInsert store batch).1 := by
  rw [doInsert_spec]
  exact doInsertW_noDup batch store h

lemma doInsert_extends (store batch : List Trade) :
    store <+: (doInsert store batch).1 := by
  rw [doInsert_spec]
  exact doInsertW_extends batch store

lemma procGo_extends (sm : String → Option Submission) (om : String → Option Owner) :
    ∀ (rows : List Row) (store batch : List Trade) (count : Nat),
      store <+: (procGo sm om rows store batch count).1
  | [], store, batch, count => by
    unfold procGo
    split
    · exact List.prefix_rfl
    · exact doInsert_extends store batch
  | t :: rest, store, batch, count => by
    unfold procGo
    split
    · exact procGo_extends sm om rest store batch count
    · dsimp only
      split
      · exact (doInsert_extends store _).trans
          (procGo_extends sm om rest (doInsert store _).1 [] _)
      · exact procGo_extends sm om rest store _ count

lemma procGo_noDup (sm : String → Option Submission) (om : String → Option Owner) :
    ∀ (rows : List Row) (store batch : List Trade) (count : Nat),
      NoDupKeys store → NoDupKeys (procGo sm om rows store batch count).1
  | [], store, batch, count, h => by
    unfold procGo
    split
    · exact h
    · exact doInsert_noDup batch h
  | t :: rest, store, batch, count, h => by
    unfold procGo
    split
    · exact procGo_noDup sm om rest store batch count h
    · dsimp only
      split
      · exact procGo_noDup sm om rest _ [] _ (doInsert_noDup _ h)
      · exact procGo_noDup sm om rest store _ count h

lemma processTransLines_extends (sm : String → Option Submission)
    (om : String → Option Owner) (store : List Trade) (lines : Option (List String))
    (isDeriv : Bool) : store <+: (processTransLines sm om store lines isDeriv).1 :=
  procGo_extends sm om (tsvRows lines) store [] 0

lemma procGo_count (sm : String → Option Submission) (om : String → Option Owner) :
    ∀ (rows : List Row) (store batch : List Trade) (count : Nat),
      (procGo sm om rows store batch count).2 =
        count + batch.length + (rows.filterMap (rowToTrade sm om)).length
  | [], store, batch, count => by
    unfold procGo
    split
    · rename_i hb
      simp [List.isEmpty_iff] at hb
      simp [hb]
    · rw [doInsert_spec]
      simp
  | t :: rest, store, batch, count => by
    unfold procGo
    cases hr : rowToTrade sm om t with
    | none => simp [hr, procGo_count sm om rest store batch count]
    | some rec =>
      simp only [hr]
      split
      · rw [doInsert_spec]
        simp only [procGo_count sm om rest _ [] _, List.filterMap_cons, hr]
        simp
        omega
      · simp only [procGo_count sm om rest store _ count, List.filterMap_cons, hr]
        simp
        omega

-- ── C1: uniqueness invariant of the trade store ────────────────────────

/-- Claim C1: under the unique index on (accession, insider, trade_date, type, qty),
any sequence of batched writes starting from a duplicate-free store leaves the
store duplicate-free; re-submitting an already-stored tuple is a no-op (and,
being a total function, raises no error); and the two fixture rows that agree
on the tuple while differing in `owned` leave exactly the one first row. -/
theorem C1_store_uniqueness :
    (∀ (store : List Trade) (batches : List (List Trade)), NoDupKeys store →
      NoDupKeys (batches.foldl (fun s b => (doInsert s b).1) store))
    ∧ (∀ (store : List Trade) (t : Trade),
        (∃ u ∈ store, tradeKey u = tradeKey t) → insertOrIgnore store t = store)
    ∧ ((doInsert [] [tradeA, tradeA2]).1 = [tradeA]
        ∧ tradeA2.owned ≠ tradeA.owned ∧ tradeKey tradeA2 = tradeKey tradeA) := by
  refine ⟨?_, ?_, by decide⟩
  · intro store batches h
    induction batches generalizing store with
    | nil => exact h
    | cons b bs ih => exact ih (doInsert store b).1 (doInsert_noDup b h)
  · intro store t h
    exact insertOrIgnore_of_mem h

/-- Witness for C1: the invariant and the no-op clause at concrete inputs. -/
theorem C1_witness :
    NoDupKeys ([[tradeA], [tradeA2]].foldl (fun s b => (doInsert s b).1) [])
    ∧ insertOrIgnore [tradeA] tradeA2 = [tradeA] :=
  ⟨C1_store_uniqueness.1 [] [[tradeA], [tradeA2]] (List.Pairwise.nil),
   C1_store_uniqueness.2.1 [tradeA] tradeA2 ⟨tradeA, by decide, by decide⟩⟩

-- ── C7: the writer's returned count ────────────────────────────────────

/-- Claim C7 as amended: `doInsert` returns the number of rows submitted in the
batch — `n` is incremented once per `insertStmt.run`, whether or not the row
was suppressed as a duplicate — and the per-quarter count accumulated by
`processTransLines` is the number of rows the normalizer emitted, not the
number of rows actually added to the store. -/
theorem C7_count_counts_submitted_rows :
    (∀ (store batch : List Trade), (doInsert store batch).2 = batch.length)
    ∧ (∀ (sm : String → Option Submission) (om : String → Option Owner)
        (store : List Trade) (lines : Option (List String)) (isDeriv : Bool),
        (processTransLines sm om store lines isDeriv).2 =
          ((tsvRows lines).filterMap (rowToTrade sm om)).length) := by
  constructor
  · intro store batch
    rw [doInsert_spec]
  · intro sm om store lines isDeriv
    simpa using procGo_count sm om (tsvRows lines) store [] 0

/-- Counterexample for C7: a batch of two rows equal on the unique tuple reports
a count of 2 while only one row lands in the store, so the returned count is
not the number of rows actually inserted. -/
theorem C7_counterexample :
    (doInsert [] [tradeA, tradeA2]).2 = 2
    ∧ ((doInsert [] [tradeA, tradeA2]).1).length = 1 := by
  decide

-- ── Date-normalizer lemmas ─────────────────────────────────────────────

lemma isoShape_length {s : String} (h : isoShape s = true) : s.data.length = 10 := by
  simp only [isoShape, Bool.and_eq_true, decide_eq_true_eq] at h
  exact h.1.1.1.1.1.1.1.1.1.1

lemma isoShape_ne_empty {s : String} (h : isoShape s = true) : s ≠ "" := by
  intro he
  subst he
  simpa using isoShape_length h

lemma ddMonParse_of_length_ne {s : String} (h : s.data.length ≠ 11) :
    ddMonParse s = none := by
  have h' : s.length ≠ 11 := h
  have hb : ddMonShape s.data = false := by
    simp [ddMonShape, h']
  simp [ddMonParse, hb]

lemma parseDate_of_iso {s : String} (h : isoShape s = true) :
    parseDate s = some s := by
  have hne := isoShape_ne_empty h
  have hdd : ddMonParse s = none :=
    ddMonParse_of_length_ne (by rw [isoShape_length h]; omega)
  simp [parseDate, hne, hdd, h]

lemma parseDate_of_neither {s : String} (hiso : isoShape s = false)
    (hdd : ddMonShape s.data = false) : parseDate s = none := by
  by_cases he : s = ""
  · simp [parseDate, he]
  · simp [parseDate, he, ddMonParse, hdd, hiso]

lemma ddMonParse_ne_empty {s r : String} (h : ddMonParse s = some r) : r ≠ "" := by
  unfold ddMonParse at h
  split at h
  · cases h
    intro he
    have hd := congrArg String.data he
    simp at hd
  · exact absurd h (by simp)

lemma parseDate_ne_empty : ∀ {s r : String}, parseDate s = some r → r ≠ "" := by
  intro s r h
  by_cases he : s = ""
  · rw [parseDate, if_pos he] at h
    exact absurd h (by simp)
  · rw [parseDate, if_neg he] at h
    split at h
    · rename_i r' hdd
      cases h
      exact ddMonParse_ne_empty hdd
    · rename_i hdd
      split at h
      · rename_i hshape
        cases h
        exact isoShape_ne_empty hshape
      · exact absurd h (by simp)

-- ── C3: the date normalizer ────────────────────────────────────────────

/-- Claim C3 as amended: the quarterly normalizer `parseDate` returns ISO-shaped
strings unchanged and rewrites `DD-MON-YYYY` to ISO, with NO year bound (a
2029 date passes through), and returns null exactly for strings matching
neither regex; the `[2000, 2027]` bound lives only in the daily-worker's
`dailyParseDate`, which accepts the ISO shape alone. -/
theorem C3_date_normalizer :
    (∀ s, isoShape s = true → parseDate s = some s)
    ∧ parseDate "15-MAR-2026" = some "2026-03-15"
    ∧ parseDate "01-MAY-2029" = some "2029-05-01"
    ∧ (∀ s, isoShape s = false → ddMonShape s.data = false → parseDate s = none)
    ∧ (∀ s, dailyParseDate s =
        if isoShape s = true ∧ 2000 ≤ isoYear s ∧ isoYear s ≤ 2027
        then some s else none) := by
  refine ⟨fun s h => parseDate_of_iso h, by decide, by decide,
    fun s h1 h2 => parseDate_of_neither h1 h2, fun s => ?_⟩
  by_cases he : s = ""
  · subst he
    decide
  · unfold dailyParseDate
    simp only [he, if_false]
    by_cases hiso : isoShape s = true
    · simp [hiso]
    · simp only [Bool.not_eq_true] at hiso
      simp [hiso]

/-- Counterexample for C3: the server normalizer accepts a year outside
`[2000, 2027]` (the claim requires null), and the daily normalizer returns
null for a well-formed `DD-MON-YYYY` date (the claim requires the rewritten
ISO form). -/
theorem C3_counterexample :
    parseDate "2029-05-01" = some "2029-05-01"
    ∧ dailyParseDate "15-MAR-2026" = none := by
  decide

/-- Witness for C3: the amended statement at concrete dates. -/
theorem C3_witness :
    parseDate "2026-03-15" = some "2026-03-15"
    ∧ parseDate "hello" = none
    ∧ dailyParseDate "2029-05-01" = none :=
  ⟨C3_date_normalizer.1 "2026-03-15" (by decide),
   C3_date_normalizer.2.2.2.1 "hello" (by decide) (by decide),
   (C3_date_normalizer.2.2.2.2 "2029-05-01").trans (by decide)⟩

-- ── Sync-machine lemmas ────────────────────────────────────────────────

lemma syncServer_error {inflate : List Nat → Except String (List Nat)}
    {fetch : String → Except String (Nat × List Nat)} {y q : Nat} {force : Bool}
    {db db' : DB} {msg : String}
    (h : (syncQuarterServer inflate fetch y q force db).1 = Sum.inr (db', msg)) :
    db'.syncLog = db.syncLog ∧ db.trades <+: db'.trades := by
  unfold syncQuarterServer at h
  dsimp only at h
  split at h
  · exact absurd h (by simp)
  · cases hf : fetch (quarterUrl y q) with
    | error e =>
      simp only [hf] at h
      cases h
      exact ⟨rfl, List.prefix_rfl⟩
    | ok p =>
      obtain ⟨status, zipBuf⟩ := p
      simp only [hf] at h
      split at h
      · cases h
        exact ⟨rfl, List.prefix_rfl⟩
      · cases hsub : extractOne inflate zipBuf "SUBMISSION" with
        | error e =>
          simp only [hsub] at h
          cases h
          exact ⟨rfl, List.prefix_rfl⟩
        | ok subL =>
          simp only [hsub] at h
          cases hfr1 : freeLines subL with
          | error e =>
            simp only [hfr1] at h
            cases h
            exact ⟨rfl, List.prefix_rfl⟩
          | ok u1 =>
            simp only [hfr1] at h
            cases hown : extractOne inflate zipBuf "REPORTINGOWNER" with
            | error e =>
              simp only [hown] at h
              cases h
              exact ⟨rfl, List.prefix_rfl⟩
            | ok ownL =>
              simp only [hown] at h
              cases hfr2 : freeLines ownL with
              | error e =>
                simp only [hfr2] at h
                cases h
                exact ⟨rfl, List.prefix_rfl⟩
              | ok u2 =>
                simp only [hfr2] at h
                cases hnd : extractOne inflate zipBuf "NONDERIV_TRANS" with
                | error e =>
                  simp only [hnd] at h
                  cases h
                  exact ⟨rfl, List.prefix_rfl⟩
                | ok ndL =>
                  simp only [hnd] at h
                  cases hfr3 : freeLines ndL with
                  | error e =>
                    simp only [hfr3] at h
                    cases h
                    exact ⟨rfl, processTransLines_extends _ _ _ _ _⟩
                  | ok u3 =>
                    simp only [hfr3] at h
                    cases hd : extractOne inflate zipBuf "DERIV_TRANS" with
                    | error e =>
                      simp only [hd] at h
                      cases h
                      exact ⟨rfl, processTransLines_extends _ _ _ _ _⟩
                    | ok dL =>
                      simp only [hd] at h
                      cases hfr4 : freeLines dL with
                      | error e =>
                        simp only [hfr4] at h
                        cases h
                        exact ⟨rfl, (processTransLines_extends _ _ _ _ _).trans
                          (processTransLines_extends _ _ _ _ _)⟩
                      | ok u4 =>
                        simp only [hfr4] at h
                        exact absurd h (by simp)

lemma syncWorker_non200 {inflate : List Nat → Except String (List Nat)}
    {fetch : String → Except String (Nat × List Nat)} {y q : Nat} {db : DB}
    {s : Nat} {buf : List Nat}
    (hf : fetch (quarterUrl y q) = .ok (s, buf)) (hs : s ≠ 200) :
    (syncQuarterWorker inflate fetch y q db).1 = Sum.inl db := by
  unfold syncQuarterWorker
  dsimp only
  split
  · rfl
  · rw [hf]
    simp [hs]

-- ── C2: per-quarter isolation and the fate of the run ──────────────────

/-- Claim C2 as amended: a quarter that throws (fetch error, non-200 status,
malformed archive, write error) is left not-Done — its SyncLogEntry is not
written, the sync log is exactly as before, and committed trade rows are only
ever extended — but the orchestrator's catch sits OUTSIDE the quarter loop:
`runSync` returns at the first failing quarter and the remaining quarters of
the list are not processed in that run.  (The sync-worker loop does continue
past a non-2xx response, which its `syncQuarter` handles with a logged
return; any thrown error still ends its run.) -/
theorem C2_failure_isolation :
    (∀ (inflate : List Nat → Except String (List Nat))
        (fetch : String → Except String (Nat × List Nat))
        (y q : Nat) (rest : List (Nat × Nat)) (force : Bool) (db db' : DB)
        (msg : String),
        (syncQuarterServer inflate fetch y q force db).1 = Sum.inr (db', msg) →
        (runSyncServer inflate fetch ((y, q) :: rest) force db = db'
          ∧ db'.syncLog = db.syncLog ∧ db.trades <+: db'.trades))
    ∧ (∀ (inflate : List Nat → Except String (List Nat))
        (fetch : String → Except String (Nat × List Nat))
        (y q : Nat) (rest : List (Nat × Nat)) (db : DB) (s : Nat) (buf : List Nat),
        fetch (quarterUrl y q) = .ok (s, buf) → s ≠ 200 →
        workerMain inflate fetch ((y, q) :: rest) db =
          workerMain inflate fetch rest db) := by
  constructor
  · intro inflate fetch y q rest force db db' msg h
    refine ⟨?_, syncServer_error h⟩
    simp only [runSyncServer, h]
  · intro inflate fetch y q rest db s buf hf hs
    simp only [workerMain, syncWorker_non200 hf hs]

/-- A fetch oracle that fails 2026 Q1 with a 404 and serves the complete
fixture archive for every other quarter. -/
def fetchQ1bad : String → Except String (Nat × List Nat) :=
  fun u => if u = quarterUrl 2026 1 then .ok (404, []) else .ok (200, zipAll)

/-- Counterexample for C2: with 2026 Q1 failing (HTTP 404) and 2025 Q4 perfectly
servable, the two-quarter run stops at the first failure and leaves 2025 Q4
untouched, even though the one-quarter run on 2025 Q4 alone completes — the
orchestrator does not continue to the remaining quarters. -/
theorem C2_counterexample :
    runSyncServer inflate0 fetchQ1bad [(2026, 1), (2025, 4)] false db0 = db0
    ∧ runSyncServer inflate0 fetchQ1bad [(2025, 4)] false db0 = dbDone := by
  set_option maxRecDepth 20000 in decide

/-- Witness for C2: the amended statement at the 404 oracle. -/
theorem C2_witness :
    (runSyncServer inflate0 fetch404 [(2026, 1), (2025, 4)] false db0 = db0
      ∧ db0.syncLog = db0.syncLog ∧ db0.trades <+: db0.trades)
    ∧ workerMain inflate0 fetch404 [(2026, 1)] db0 =
        workerMain inflate0 fetch404 [] db0 :=
  ⟨C2_failure_isolation.1 inflate0 fetch404 2026 1 [(2025, 4)] false db0 db0
      "HTTP 404" (by decide),
   C2_failure_isolation.2 inflate0 fetch404 2026 1 [] db0 404 [] rfl (by decide)⟩

lemma lookupLog_logSet (log : List (String × Nat)) (k : String) (n : Nat) :
    lookupLog (logSet log k n) k = some n := by
  unfold lookupLog logSet
  induction log with
  | nil => simp
  | cons p rest ih =>
    by_cases hp : p.1 = k
    · simp [List.filter, hp] at ih ⊢
    · simp [List.filter, List.find?, hp] at ih ⊢

lemma syncServer_ok_log {inflate : List Nat → Except String (List Nat)}
    {fetch : String → Except String (Nat × List Nat)} {y q : Nat} {force : Bool}
    {db db₁ : DB}
    (h : (syncQuarterServer inflate fetch y q force db).1 = Sum.inl db₁) :
    (lookupLog db₁.syncLog (qkey y q)).isSome = true := by
  unfold syncQuarterServer at h
  dsimp only at h
  split at h
  · rename_i hskip
    simp only [Sum.inl.injEq] at h
    subst h
    exact hskip.2
  · cases hf : fetch (quarterUrl y q) with
    | error e => simp [hf] at h
    | ok p =>
      obtain ⟨status, zipBuf⟩ := p
      simp only [hf] at h
      split at h
      · simp at h
      · cases hsub : extractOne inflate zipBuf "SUBMISSION" with
        | error e => simp [hsub] at h
        | ok subL =>
          simp only [hsub] at h
          cases hfr1 : freeLines subL with
          | error e => simp [hfr1] at h
          | ok u1 =>
            simp only [hfr1] at h
            cases hown : extractOne inflate zipBuf "REPORTINGOWNER" with
            | error e => simp [hown] at h
            | ok ownL =>
              simp only [hown] at h
              cases hfr2 : freeLines ownL with
              | error e => simp [hfr2] at h
              | ok u2 =>
                simp only [hfr2] at h
                cases hnd : extractOne inflate zipBuf "NONDERIV_TRANS" with
                | error e => simp [hnd] at h
                | ok ndL =>
                  simp only [hnd] at h
                  cases hfr3 : freeLines ndL with
                  | error e => simp [hfr3] at h
                  | ok u3 =>
                    simp only [hfr3] at h
                    cases hd : extractOne inflate zipBuf "DERIV_TRANS" with
                    | error e => simp [hd] at h
                    | ok dL =>
                      simp only [hd] at h
                      cases hfr4 : freeLines dL with
                      | error e => simp [hfr4] at h
                      | ok u4 =>
                        simp only [hfr4] at h
                        simp only [Sum.inl.injEq] at h
                        subst h
                        simp [lookupLog_logSet]

-- ── C4: Done is idempotent and short-circuits ──────────────────────────

/-- Claim C4: a quarter whose sync completed (any normal return of the server's
`syncQuarter` — which always leaves a SyncLogEntry for the key) is skipped by
a second, unforced run under ANY fetch oracle: the state is returned
unchanged and the effect list is empty, i.e. no network fetch and no store
write happen, so the second run adds zero rows; likewise the worker's
`syncQuarter` short-circuits whenever the quarter's SyncLogEntry exists. -/
theorem C4_done_short_circuits :
    (∀ (inflate inflate2 : List Nat → Except String (List Nat))
        (fetch fetch2 : String → Except String (Nat × List Nat))
        (y q : Nat) (force : Bool) (db db₁ : DB),
        (syncQuarterServer inflate fetch y q force db).1 = Sum.inl db₁ →
        syncQuarterServer inflate2 fetch2 y q false db₁ = (Sum.inl db₁, []))
    ∧ (∀ (inflate : List Nat → Except String (List Nat))
        (fetch : String → Except String (Nat × List Nat)) (y q : Nat) (db : DB),
        (lookupLog db.syncLog (qkey y q)).isSome = true →
        syncQuarterWorker inflate fetch y q db = (Sum.inl db, [])) := by
  constructor
  · intro inflate inflate2 fetch fetch2 y q force db db₁ h
    have hlog := syncServer_ok_log h
    unfold syncQuarterServer
    rw [if_pos ⟨rfl, hlog⟩]
  · intro inflate fetch y q db hlog
    unfold syncQuarterWorker
    rw [if_pos hlog]

/-- Witness for C4: after the fixture sync of 2025 Q4 completes, a second
unforced run against a dead network returns the database unchanged with no
fetch recorded, for both the server and the worker sync. -/
theorem C4_witness :
    syncQuarterServer inflate0 fetchDead 2025 4 false dbDone = (Sum.inl dbDone, [])
    ∧ syncQuarterWorker inflate0 fetchDead 2025 4 dbDone = (Sum.inl dbDone, []) :=
  ⟨C4_done_short_circuits.1 inflate0 inflate0 fetchAll fetchDead 2025 4 false db0
      dbDone (by set_option maxRecDepth 20000 in decide),
   C4_done_short_circuits.2 inflate0 fetchDead 2025 4 dbDone (by decide)⟩

-- ── C6: missing-table tolerance ────────────────────────────────────────

/-- Claim C6: on the fixture archive that lacks a DERIV_TRANS member, `extractOne`
returns the explicit absent signal (`null`, not an error); the sync-worker's
quarter then completes — the missing table contributes zero trades, the
non-derivative trade is ingested and the SyncLogEntry is written — but
server.js's `syncQuarter` crashes after its derivative pass: it runs
`dLines.length = 0` on the `null` that `extractOne` returned, throwing a
TypeError, so the quarter aborts without a SyncLogEntry despite the inserted
non-derivative row. -/
theorem C6_missing_table :
    extractOne inflate0 zipNoDeriv "DERIV_TRANS" = .ok none
    ∧ syncQuarterWorker inflate0 fetchNoDeriv 2025 4 db0 =
        (Sum.inl dbDone, [quarterUrl 2025 4])
    ∧ (syncQuarterServer inflate0 fetchNoDeriv 2025 4 false db0).1 =
        Sum.inr ({ trades := [tradeA], syncLog := [] },
          "TypeError: Cannot set properties of null") := by
  set_option maxRecDepth 20000 in decide

-- ── C5: the trade-date fallback chain ──────────────────────────────────

/-- First non-null of a list of nullable dates, as the specification words
the fallback chain. -/
def firstNonNull : List (Option String) → Option String
  | [] => none
  | none :: rest => firstNonNull rest
  | some x :: _ => some x

lemma chain_eq_firstNonNull {a b c : Option String}
    (ha : ∀ x, a = some x → x ≠ "") (hb : ∀ x, b = some x → x ≠ "") :
    jsOrO a (jsOrO b c) = firstNonNull [a, b, c] := by
  cases a with
  | some s =>
    have hs := ha s rfl
    simp [jsOrO, firstNonNull, hs]
  | none =>
    cases b with
    | some s =>
      have hs := hb s rfl
      simp [jsOrO, firstNonNull, hs]
    | none =>
      cases c with
      | some s => simp [jsOrO, firstNonNull]
      | none => simp [jsOrO, firstNonNull]

/-- Claim C5: for a transaction row whose accession resolves to a submission built
from a submission row and carrying a non-empty ticker, the emitted
`trade_date` is the first non-null of (normalized transaction date, the
submission's period date, the submission's filed date); when all three are
null the row is dropped. -/
theorem C5_trade_date_fallback :
    ∀ (subMap : String → Option Submission) (ownerMap : String → Option Owner)
      (t sRow : Row),
      subMap (rowGet t "ACCESSION_NUMBER") = some (buildSub sRow) →
      (buildSub sRow).ticker ≠ "" →
      ((∀ rec, rowToTrade subMap ownerMap t = some rec →
          some rec.trade_date =
            firstNonNull [parseDate (rowGet t "TRANS_DATE"),
              (buildSub sRow).period, (buildSub sRow).filed])
        ∧ (firstNonNull [parseDate (rowGet t "TRANS_DATE"),
              (buildSub sRow).period, (buildSub sRow).filed] = none →
            rowToTrade subMap ownerMap t = none)) := by
  intro subMap ownerMap t sRow hmap hticker
  have ha : ∀ x, parseDate (rowGet t "TRANS_DATE") = some x → x ≠ "" :=
    fun x hx => parseDate_ne_empty hx
  have hb : ∀ x, (buildSub sRow).period = some x → x ≠ "" :=
    fun x hx => parseDate_ne_empty hx
  have hchain := chain_eq_firstNonNull (b := (buildSub sRow).period)
    (c := (buildSub sRow).filed) ha hb
  constructor
  · intro rec hrec
    unfold rowToTrade at hrec
    dsimp only at hrec
    rw [hmap] at hrec
    dsimp only at hrec
    rw [if_neg hticker] at hrec
    rw [hchain] at hrec
    cases hfn : firstNonNull [parseDate (rowGet t "TRANS_DATE"),
        (buildSub sRow).period, (buildSub sRow).filed] with
    | none =>
      rw [hfn] at hrec
      exact absurd hrec (by simp)
    | some d =>
      rw [hfn] at hrec
      simp only [Option.some.injEq] at hrec
      subst hrec
      rfl
  · intro hfn
    unfold rowToTrade
    dsimp only
    rw [hmap]
    dsimp only
    rw [if_neg hticker]
    rw [hchain, hfn]

/-- Empty owner map. -/
def om0 : String → Option Owner := fun _ => none

/-- Submission row with both dates present for the C5 scenario. -/
def sRowC5 : Row :=
  [("ISSUERTRADINGSYMBOL", "ACME"), ("FILEDATE", "2026-04-10"),
   ("PERIOD_OF_REPORT", "2026-03-31")]

/-- Submission map resolving accession A1 to `sRowC5`. -/
def smC5 : String → Option Submission :=
  fun k => if k = "A1" then some (buildSub sRowC5) else none

/-- Transaction row with no transaction date. -/
def tC5 : Row := [("ACCESSION_NUMBER", "A1")]

/-- The trade the C5 scenario emits. -/
def recC5 : Trade :=
  { ticker := "ACME", company := "", insider := "", title := "",
    trade_date := "2026-03-31", filing_date := "2026-04-10", type_ := "?",
    qty := 0, price := 0, value := 0, owned := 0, accession := "A1" }

/-- Submission row with no usable dates. -/
def sRowC5n : Row := [("ISSUERTRADINGSYMBOL", "ACME")]

/-- Submission map resolving accession A1 to the date-less `sRowC5n`. -/
def smC5n : String → Option Submission :=
  fun k => if k = "A1" then some (buildSub sRowC5n) else none

/-- Witness for C5: no transaction date, period `2026-03-31`, filed `2026-04-10`
gives `trade_date = 2026-03-31`; with all three dates null the row is
dropped. -/
theorem C5_witness :
    (rowToTrade smC5 om0 tC5).map Trade.trade_date = some "2026-03-31"
    ∧ rowToTrade smC5n om0 tC5 = none := by
  constructor
  · have h := (C5_trade_date_fallback smC5 om0 tC5 sRowC5 (by decide) (by decide)).1
      recC5 (by decide)
    have h2 : some recC5.trade_date = some "2026-03-31" := h.trans (by decide)
    rw [show rowToTrade smC5 om0 tC5 = some recC5 from by decide]
    simpa using h2
  · exact (C5_trade_date_fallback smC5n om0 tC5 sRowC5n (by decide) (by decide)).2
      (by decide)

-- ── Normalizer field lemmas for C8, C9, C10 ────────────────────────────

lemma jsOrO_some_ne {a b : Option String} {d : String}
    (h : jsOrO a b = some d) (hb : ∀ x, b = some x → x ≠ "") : d ≠ "" := by
  cases a with
  | none => exact hb d h
  | some s =>
    by_cases hs : s = ""
    · refine hb d ?_
      simpa [jsOrO, hs] using h
    · have h2 : some s = some d := by simpa [jsOrO, hs] using h
      cases h2
      exact hs

lemma rowToTrade_some {sm : String → Option Submission} {om : String → Option Owner}
    {t : Row} {rec : Trade} (h : rowToTrade sm om t = some rec) :
    ∃ sub date, sm (rowGet t "ACCESSION_NUMBER") = some sub ∧ sub.ticker ≠ ""
      ∧ jsOrO (parseDate (rowGet t "TRANS_DATE")) (jsOrO sub.period sub.filed) = some date
      ∧ rec =
        { ticker := sub.ticker, company := sub.company,
          insider := ((om (rowGet t "ACCESSION_NUMBER")).map Owner.name).getD "",
          title := ((om (rowGet t "ACCESSION_NUMBER")).map Owner.title).getD "",
          trade_date := date, filing_date := jsOrS sub.filed date,
          type_ := myTrim (jsOr (rowGet t "TRANS_CODE") "?"),
          qty := jsRound |numOrZero (jsOr (rowGet t "TRANS_SHARES")
            (jsOr (rowGet t "UNDERLYING_SHARES") "0"))|,
          price := toFixed4 |numOrZero (jsOr (rowGet t "TRANS_PRICEPERSHARE")
            (jsOr (rowGet t "EXERCISE_PRICE") "0"))|,
          value := jsRound ((jsRound |numOrZero (jsOr (rowGet t "TRANS_SHARES")
            (jsOr (rowGet t "UNDERLYING_SHARES") "0"))| : ℚ) *
            |numOrZero (jsOr (rowGet t "TRANS_PRICEPERSHARE")
              (jsOr (rowGet t "EXERCISE_PRICE") "0"))|),
          owned := jsRound |numOrZero (jsOr (rowGet t "SHRSOWNFOLLOWINGTRANS") "0")|,
          accession := rowGet t "ACCESSION_NUMBER" } := by
  unfold rowToTrade at h
  dsimp only at h
  cases hsubm : sm (rowGet t "ACCESSION_NUMBER") with
  | none =>
    rw [hsubm] at h
    exact absurd h (by simp)
  | some sub =>
    rw [hsubm] at h
    dsimp only at h
    split at h
    · exact absurd h (by simp)
    · rename_i hticker
      cases hdate : jsOrO (parseDate (rowGet t "TRANS_DATE"))
          (jsOrO sub.period sub.filed) with
      | none =>
        rw [hdate] at h
        exact absurd h (by simp)
      | some date =>
        rw [hdate] at h
        dsimp only at h
        simp only [Option.some.injEq] at h
        exact ⟨sub, date, rfl, hticker, hdate, h.symm⟩

-- ── C8: qty and price fallbacks ────────────────────────────────────────

/-- Claim C8 as amended: for every emitted row, `qty` is the rounded absolute value
of the shares string, falling back to the underlying-security-shares string
ONLY when the shares string is blank — a literal `"0"` shares value is used
as-is and triggers no fallback — and `price` is the absolute value of the
price-per-share string (rounded to four decimals), falling back to the
exercise price only when the price string is blank. -/
theorem C8_qty_price_fallback :
    ∀ (sm : String → Option Submission) (om : String → Option Owner)
      (t : Row) (rec : Trade), rowToTrade sm om t = some rec →
      ((rowGet t "TRANS_SHARES" ≠ "" →
          rec.qty = jsRound |numOrZero (rowGet t "TRANS_SHARES")|)
        ∧ (rowGet t "TRANS_SHARES" = "" →
          rec.qty = jsRound |numOrZero (jsOr (rowGet t "UNDERLYING_SHARES") "0")|)
        ∧ (rowGet t "TRANS_PRICEPERSHARE" ≠ "" →
          rec.price = toFixed4 |numOrZero (rowGet t "TRANS_PRICEPERSHARE")|)
        ∧ (rowGet t "TRANS_PRICEPERSHARE" = "" →
          rec.price = toFixed4 |numOrZero (jsOr (rowGet t "EXERCISE_PRICE") "0")|)) := by
  intro sm om t rec h
  obtain ⟨sub, date, -, -, -, hrec⟩ := rowToTrade_some h
  subst hrec
  refine ⟨?_, ?_, ?_, ?_⟩ <;> intro hx <;> simp [jsOr, hx]

/-- Submission fixture for the C8/C9 scenarios. -/
def subC8 : Submission := { ticker := "ACME", company := "", filed := none, period := none }

/-- Submission map resolving accession A1 to `subC8`. -/
def smC8 : String → Option Submission := fun k => if k = "A1" then some subC8 else none

/-- Derivative row whose shares field holds a literal zero while the
underlying-shares field holds 500. -/
def tC8 : Row :=
  [("ACCESSION_NUMBER", "A1"), ("TRANS_DATE", "2026-03-15"), ("TRANS_CODE", "A"),
   ("TRANS_SHARES", "0"), ("UNDERLYING_SHARES", "500")]

/-- Counterexample for C8: with `TRANS_SHARES = "0"` and `UNDERLYING_SHARES =
"500"` the emitted qty is 0 — the string `"0"` is truthy in JS, so the
claimed fallback-on-zero to 500 does not happen. -/
theorem C8_counterexample :
    (rowToTrade smC8 om0 tC8).map Trade.qty = some 0
    ∧ (rowToTrade smC8 om0 tC8).map Trade.qty ≠ some 500 := by
  decide

/-- The trade the C8 row normalizes to. -/
def recC8 : Trade :=
  { ticker := "ACME", company := "", insider := "", title := "",
    trade_date := "2026-03-15", filing_date := "2026-03-15", type_ := "A",
    qty := 0, price := 0, value := 0, owned := 0, accession := "A1" }

/-- Witness for C8: the amended statement at the concrete derivative row (shares
present, price blank). -/
theorem C8_witness :
    recC8.qty = jsRound |numOrZero (rowGet tC8 "TRANS_SHARES")|
    ∧ recC8.price = toFixed4 |numOrZero (jsOr (rowGet tC8 "EXERCISE_PRICE") "0")| := by
  have h := C8_qty_price_fallback smC8 om0 tC8 recC8 (by decide)
  exact ⟨h.1 (by decide), h.2.2.2 (by decide)⟩

-- ── C9: the owned column ───────────────────────────────────────────────

/-- Claim C9 as amended: every emitted row — derivative or not — stores `owned` as
the rounded absolute value of the SHRSOWNFOLLOWINGTRANS string; the `isDeriv`
flag of `processTransLines` is never consulted, so derivative rows store 0
only when that field is blank (the derivative table normally lacks the
column), not by construction. -/
theorem C9_owned_same_formula_for_both_tables :
    (∀ (sm : String → Option Submission) (om : String → Option Owner)
        (t : Row) (rec : Trade), rowToTrade sm om t = some rec →
        rec.owned = jsRound |numOrZero (jsOr (rowGet t "SHRSOWNFOLLOWINGTRANS") "0")|)
    ∧ (∀ (sm : String → Option Submission) (om : String → Option Owner)
        (store : List Trade) (lines : Option (List String)) (d1 d2 : Bool),
        processTransLines sm om store lines d1 = processTransLines sm om store lines d2) := by
  constructor
  · intro sm om t rec h
    obtain ⟨sub, date, -, -, -, hrec⟩ := rowToTrade_some h
    subst hrec
    rfl
  · intro sm om store lines d1 d2
    rfl

/-- A derivative-table fixture carrying a SHRSOWNFOLLOWINGTRANS column. -/
def dLinesC9 : List String :=
  ["ACCESSION_NUMBER\tTRANS_DATE\tTRANS_CODE\tSHRSOWNFOLLOWINGTRANS",
   "A1\t2026-03-15\tA\t100"]

/-- Counterexample for C9: processing that table as the derivative pass
(`isDeriv = true`) stores `owned = 100`, not the 0 the claim requires for
every derivative row. -/
theorem C9_counterexample :
    ((processTransLines smC8 om0 [] (some dLinesC9) true).1).map Trade.owned = [100]
    ∧ ((processTransLines smC8 om0 [] (some dLinesC9) true).1).map Trade.owned ≠ [0] := by
  decide

/-- The C9 row as the decoder hands it to the normalizer. -/
def tC9 : Row :=
  [("ACCESSION_NUMBER", "A1"), ("TRANS_DATE", "2026-03-15"), ("TRANS_CODE", "A"),
   ("SHRSOWNFOLLOWINGTRANS", "100")]

/-- The trade the C9 row normalizes to. -/
def recC9 : Trade :=
  { ticker := "ACME", company := "", insider := "", title := "",
    trade_date := "2026-03-15", filing_date := "2026-03-15", type_ := "A",
    qty := 0, price := 0, value := 0, owned := 100, accession := "A1" }

/-- Witness for C9: the owned formula at the concrete row, and the literal
irrelevance of the `isDeriv` flag on the fixture table. -/
theorem C9_witness :
    recC9.owned = jsRound |numOrZero (jsOr (rowGet tC9 "SHRSOWNFOLLOWINGTRANS") "0")|
    ∧ processTransLines smC8 om0 [] (some dLinesC9) true =
        processTransLines smC8 om0 [] (some dLinesC9) false :=
  ⟨C9_owned_same_formula_for_both_tables.1 smC8 om0 tC9 recC9 (by decide),
   C9_owned_same_formula_for_both_tables.2 smC8 om0 [] (some dLinesC9) true false⟩

-- ── C10: the filing_date column ────────────────────────────────────────

/-- Claim C10: every emitted row's `filing_date` is non-empty: it equals the
submission's normalized filed date when that is non-null and the emitted
`trade_date` otherwise, and the submission's filed date is
`parseDate(FILEDATE || PERIOD_OF_REPORT || '')`, falling back to the
period-of-report field when FILEDATE is missing. -/
theorem C10_filing_date :
    ∀ (sm : String → Option Submission) (om : String → Option Owner)
      (t sRow : Row) (rec : Trade),
      sm (rowGet t "ACCESSION_NUMBER") = some (buildSub sRow) →
      rowToTrade sm om t = some rec →
      (rec.filing_date ≠ ""
        ∧ ((buildSub sRow).filed = none → rec.filing_date = rec.trade_date)
        ∧ (∀ f, (buildSub sRow).filed = some f → rec.filing_date = f)
        ∧ (buildSub sRow).filed =
            parseDate (jsOr (rowGet sRow "FILEDATE")
              (jsOr (rowGet sRow "PERIOD_OF_REPORT") ""))) := by
  intro sm om t sRow rec hmap h
  obtain ⟨sub, date, hsubm, hticker, hdate, hrec⟩ := rowToTrade_some h
  have hsub : sub = buildSub sRow := by
    have h2 := hmap.symm.trans hsubm
    exact (Option.some.injEq _ _).mp h2.symm
  subst hsub
  subst hrec
  have hdatene : date ≠ "" := by
    refine jsOrO_some_ne hdate ?_
    intro x hx
    refine jsOrO_some_ne hx ?_
    intro z hz
    exact parseDate_ne_empty hz
  refine ⟨?_, ?_, ?_, rfl⟩
  · cases hf : (buildSub sRow).filed with
    | none =>
      simp only [jsOrS, hf]
      exact hdatene
    | some f =>
      have hfne : f ≠ "" := parseDate_ne_empty hf
      simp only [jsOrS, hf]
      simp only [hfne, if_false]
      exact hfne
  · intro hf
    simp [jsOrS, hf]
  · intro f hf
    have hfne : f ≠ "" := parseDate_ne_empty hf
    simp [jsOrS, hf, hfne]

/-- Witness for C10: at the C5 fixtures the stored filing_date is the
submission's filed date `2026-04-10` and is non-empty. -/
theorem C10_witness :
    recC5.filing_date ≠ "" ∧ recC5.filing_date = "2026-04-10" := by
  have h := C10_filing_date smC5 om0 tC5 sRowC5 recC5 (by decide) (by decide)
  exact ⟨h.1, h.2.2.1 "2026-04-10" (by decide)⟩
